import Mathlib

/-!
Verification of the KMKO participant-ingestion core (`run.py`): the date-string
normalizer (`_apply_century_sanity`, `_parse_digits_compact`, `parse_any_date`),
the tolerant CSV loader (`load_csv_flex`), per-row validation (`validate_row`),
and the bulk ingestion loop of `record_participation`.

The embedding is shallow: Python `datetime` dates become a `(year, month, day)`
triple of naturals with explicit Gregorian validity; Python functions that raise
`ValueError` become `Option`/`Except` valued functions; the ambient "current
date" (`date.today()`) is an explicit parameter; the third-party `dateutil`
fuzzy parser (an external library, not repository code) is an explicit oracle
parameter `fb`, constrained only to return real calendar dates.
-/

namespace KMKO

/-- Calendar date: the shallow embedding of a Python `datetime` value (only the
year/month/day triple matters to the code under verification). -/
structure Date where
  year : Nat
  month : Nat
  day : Nat
deriving DecidableEq, Repr

/-- Gregorian leap-year rule, as used by Python `datetime` validity checks. -/
def is_leap (y : Nat) : Bool := y % 4 == 0 && (y % 100 != 0 || y % 400 == 0)

/-- Number of days in a month, as used by Python `datetime` validity checks. -/
def days_in_month (y m : Nat) : Nat :=
  if m = 2 then (if is_leap y then 29 else 28)
  else if m = 4 ∨ m = 6 ∨ m = 9 ∨ m = 11 then 30
  else 31

/-- Validity of a `(y, m, d)` triple for Python `datetime(y, m, d)`:
`MINYEAR = 1 ≤ y ≤ 9999 = MAXYEAR`, month in range, day in range for the
month (leap years included). -/
def validYMD (y m d : Nat) : Bool :=
  decide (1 ≤ y ∧ y ≤ 9999 ∧ 1 ≤ m ∧ m ≤ 12 ∧ 1 ≤ d ∧ d ≤ days_in_month y m)

/-- Validity of a `Date`. -/
def valid_date (dt : Date) : Bool := validYMD dt.year dt.month dt.day

/-- Embedding of the `datetime(y, m, d)` constructor: `none` models the
`ValueError` raised on an invalid date. -/
def build_date (y m d : Nat) : Option Date :=
  if validYMD y m d then some ⟨y, m, d⟩ else none

/-- Date comparison `a < b`, as Python compares `date` values
(lexicographic on year, month, day). -/
def date_lt (a b : Date) : Prop :=
  a.year < b.year ∨
    (a.year = b.year ∧ (a.month < b.month ∨ (a.month = b.month ∧ a.day < b.day)))

instance date_lt_dec (a b : Date) : Decidable (date_lt a b) := by
  unfold date_lt; exact inferInstance

/-- Embedding of `_apply_century_sanity` (run.py:68-77), with the ambient
`date.today()` made an explicit parameter.  If the parsed date is strictly later
than `today`, replace the year by `year - 100` (the `dt.replace` call, which
raises on a non-existent date, e.g. 29 February of a non-leap year); on that
failure, clamp to 28 February of the shifted year.  `none` models a `ValueError`
escaping the function (both `replace` calls failing, impossible for a realistic
`today`). -/
def apply_century_sanity (dt today : Date) : Option Date :=
  if date_lt today dt then
    match build_date (dt.year - 100) dt.month dt.day with
    | some d => some d
    | none => build_date (dt.year - 100) 2 28
  else some dt

/-- Embedding of Python `str.strip()`: drop leading and trailing whitespace. -/
def py_strip (s : String) : String :=
  String.mk (((s.data.dropWhile Char.isWhitespace).reverse.dropWhile Char.isWhitespace).reverse)

/-- Embedding of `re.sub(r"\D", "", s)` (run.py:151): keep only digits. -/
def strip_non_digits (s : String) : String := String.mk (s.data.filter Char.isDigit)

/-- Embedding of Python `str.isdigit()`: nonempty and all digits. -/
def py_isdigit (s : String) : Bool := !s.data.isEmpty && s.data.all Char.isDigit

/-- Embedding of Python `int(s)` on a digit-only string. -/
def toNat10 (s : String) : Nat := s.data.foldl (fun a c => a * 10 + (c.toNat - 48)) 0

/-- Embedding of the Python slice `s[i:j]` (for `i ≤ j`). -/
def slice (s : String) (i j : Nat) : String := String.mk ((s.data.drop i).take (j - i))

/-- Two-digit-year pivot constant (run.py:30). -/
def YY_PIVOT : Nat := 30

/-- Embedding of `year_from_yy` inside `_parse_digits_compact` (run.py:117-119). -/
def year_from_yy (val : Nat) : Nat :=
  if val ≤ YY_PIVOT then 2000 + val else 1900 + val

/-- Embedding of the local `build` helper of `_parse_digits_compact`
(run.py:90-92): convert the three digit substrings and construct a datetime. -/
def build (y m d : String) : Option Date := build_date (toNat10 y) (toNat10 m) (toNat10 d)

/-- The `for ... try ... except ValueError: continue` loop of
`_parse_digits_compact`: return the first attempt that builds a valid date. -/
def first_some : List (Option Date) → Option Date
  | [] => none
  | some d :: _ => some d
  | none :: rest => first_some rest

/-- Embedding of `_parse_digits_compact` (run.py:80-135).  8-digit strings try
DDMMYYYY / YYYYMMDD / MMDDYYYY (order per `prefer_day_first`); 6-digit strings
try DDMMYY / MMDDYY with the pivoted two-digit year; anything else yields
`none`. -/
def parse_digits_compact (s : String) (prefer_day_first : Bool) : Option Date :=
  if !py_isdigit s then none
  else if s.length = 8 then
    first_some (if prefer_day_first then
      [build (slice s 4 8) (slice s 2 4) (slice s 0 2),
       build (slice s 0 4) (slice s 4 6) (slice s 6 8),
       build (slice s 4 8) (slice s 0 2) (slice s 2 4)]
    else
      [build (slice s 4 8) (slice s 0 2) (slice s 2 4),
       build (slice s 0 4) (slice s 4 6) (slice s 6 8),
       build (slice s 4 8) (slice s 2 4) (slice s 0 2)])
  else if s.length = 6 then
    first_some (if prefer_day_first then
      [build_date (year_from_yy (toNat10 (slice s 4 6))) (toNat10 (slice s 2 4)) (toNat10 (slice s 0 2)),
       build_date (year_from_yy (toNat10 (slice s 4 6))) (toNat10 (slice s 0 2)) (toNat10 (slice s 2 4))]
    else
      [build_date (year_from_yy (toNat10 (slice s 4 6))) (toNat10 (slice s 0 2)) (toNat10 (slice s 2 4)),
       build_date (year_from_yy (toNat10 (slice s 4 6))) (toNat10 (slice s 2 4)) (toNat10 (slice s 0 2))])
  else none

/-- An apostrophe character, for building Python `repr` strings. -/
def squote : Char := Char.ofNat 39

/-- Python `repr` of a simple string (no embedded quotes or escapes). -/
def py_repr (s : String) : String := String.mk (squote :: (s.data ++ [squote]))

/-- The `ValueError` message of `parse_any_date` (run.py:167-169). -/
def invalid_date_msg (dob : String) : String :=
  "Invalid date format: " ++ py_repr dob ++ ". Try like " ++ py_repr "14/02/2013"
    ++ " or " ++ py_repr "2013-02-14" ++ "."

/-- Two-digit zero-padded decimal rendering (characters). -/
def pad2l (n : Nat) : List Char := [Nat.digitChar (n / 10 % 10), Nat.digitChar (n % 10)]

/-- Four-digit zero-padded decimal rendering (characters). -/
def pad4l (n : Nat) : List Char :=
  [Nat.digitChar (n / 1000 % 10), Nat.digitChar (n / 100 % 10),
   Nat.digitChar (n / 10 % 10), Nat.digitChar (n % 10)]

/-- Embedding of `dt.strftime("%Y-%m-%d")` (zero-padded components). -/
def fmt_iso (d : Date) : String :=
  String.mk (pad4l d.year ++ '-' :: (pad2l d.month ++ '-' :: pad2l d.day))

/-- The tail of the `dateutil` stage of `parse_any_date` (run.py:171-172): the
century-sanity pass runs outside any `try`, so its `ValueError` (unreachable
with a realistic `today`) propagates. -/
def finish_fallback (dt today : Date) : Except String Date :=
  match apply_century_sanity dt today with
  | some d => .ok d
  | none => .error "year out of range"

/-- The general-parsing stage of `parse_any_date` (run.py:160-169): try the
`dateutil` oracle `fb` with `dayfirst = pref`, retry with the opposite
preference, else raise the invalid-format `ValueError`. -/
def fallback_stage (fb : String → Bool → Option Date) (s dob_str : String)
    (pref : Bool) (today : Date) : Except String Date :=
  match fb s pref with
  | some dt => finish_fallback dt today
  | none =>
    match fb s (!pref) with
    | some dt => finish_fallback dt today
    | none => .error (invalid_date_msg dob_str)

/-- Embedding of `parse_any_date` (run.py:138-172), returning the final `Date`
(before `strftime`).  `fb` is the `dateutil.parser.parse` oracle (external
library); `today` is the ambient current date.  Errors carry the `ValueError`
message.  A `ValueError` out of the compact fast path (century sanity failing)
falls through to the general stage, exactly as the `try/except` does. -/
def parse_any_date_dt (fb : String → Bool → Option Date) (dob_str : String)
    (prefer_day_first : Bool) (today : Date) : Except String Date :=
  if (py_strip dob_str).data.isEmpty then .error "Date is required"
  else
    match parse_digits_compact (strip_non_digits (py_strip dob_str)) prefer_day_first with
    | some dt =>
      match apply_century_sanity dt today with
      | some d => .ok d
      | none => fallback_stage fb (py_strip dob_str) dob_str prefer_day_first today
    | none => fallback_stage fb (py_strip dob_str) dob_str prefer_day_first today

/-- Embedding of `parse_any_date` (run.py:138-172): the ISO-serialized result. -/
def parse_any_date (fb : String → Bool → Option Date) (dob_str : String)
    (prefer_day_first : Bool) (today : Date) : Except String String :=
  match parse_any_date_dt fb dob_str prefer_day_first today with
  | .ok d => .ok (fmt_iso d)
  | .error e => .error e

/-- A `dateutil` oracle that always fails (irrelevant on compact-digit inputs,
which never reach the fallback stage). -/
def fb0 : String → Bool → Option Date := fun _ _ => none

/-- A fixed "current date" used to instantiate theorems: 12 October 2026. -/
def today0 : Date := ⟨2026, 10, 12⟩

/-- The oracle hypothesis for `fb`: `dateutil` only ever returns real calendar
dates (Python `datetime` values are valid by construction). -/
def fb_valid (fb : String → Bool → Option Date) : Prop :=
  ∀ s b dt, fb s b = some dt → valid_date dt = true

/-- A row dictionary as consumed by `validate_row` (run.py:220-237): the value
of a key is `none` when the key is absent from the dict or mapped to Python
`None`; `some v` when mapped to the string `v`. -/
structure RowDict where
  FirstName : Option String
  LastName : Option String
  DateOfBirth : Option String
deriving DecidableEq, Repr

/-- Embedding of the Python idiom `(x or "")` for an optional string (`None`
and `""` are both falsy and yield `""`). -/
def py_or_empty : Option String → String
  | none => ""
  | some v => v

/-- The blank test `not (x or "").strip()` used throughout `validate_row`. -/
def is_blank (o : Option String) : Bool := (py_strip (py_or_empty o)).data.isEmpty

/-- Embedding of `validate_row` (run.py:220-237), parameterized by the date
normalizer `norm` (the code calls `parse_any_date(row["DateOfBirth"])` with the
default day-first preference and the ambient current date).  The three blank
checks run unconditionally and in order; the date check runs only when
`DateOfBirth` is non-blank and appends the normalizer `ValueError` message
verbatim. -/
def validate_row (norm : String → Except String String) (row : RowDict) : List String :=
  (if is_blank row.FirstName then ["FirstName is required"] else [])
  ++ (if is_blank row.LastName then ["LastName is required"] else [])
  ++ (if is_blank row.DateOfBirth then ["DateOfBirth is required"] else [])
  ++ (if is_blank row.DateOfBirth then []
      else match norm (py_or_empty row.DateOfBirth) with
        | .ok _ => []
        | .error e => [e])

/-- The canonical column names (run.py:177). -/
def REQUIRED_COLS : List String := ["FirstName", "LastName", "DateOfBirth"]

/-- The header alias dictionary (run.py:179-187), verbatim. -/
def HEADER_ALIASES : List (String × String) :=
  [("firstname", "FirstName"), ("first_name", "FirstName"),
   ("givenname", "FirstName"), ("given_name", "FirstName"),
   ("lastname", "LastName"), ("last_name", "LastName"), ("surname", "LastName"),
   ("familyname", "LastName"), ("family_name", "LastName"),
   ("dob", "DateOfBirth"), ("dateofbirth", "DateOfBirth"),
   ("date_of_birth", "DateOfBirth"),
   ("birthdate", "DateOfBirth"), ("birth_date", "DateOfBirth")]

/-- The key normalization of `_canon_header` (run.py:190): lower-case, then
strip every character outside `[a-z0-9]`. -/
def canon_key (s : String) : String :=
  String.mk ((s.data.map Char.toLower).filter fun c =>
    c.isDigit || (97 ≤ c.toNat && c.toNat ≤ 122))

/-- Embedding of `_canon_header` (run.py:189-191). -/
def canon_header (s : String) : Option String := HEADER_ALIASES.lookup (canon_key s)

/-- Index of the first occurrence of a column label. -/
def idx_of (cols : List String) (c : String) : Nat :=
  match cols with
  | [] => 0
  | x :: rest => if x = c then 0 else idx_of rest c + 1

/-- Cell access with the pandas `fillna("")` convention: a missing cell is the
empty string. -/
def get_cell (r : List String) (i : Nat) : String := r.getD i ""

/-- Projection of one data row onto the three canonical columns by header
label, per `df[REQUIRED_COLS]` after alias renaming. -/
def project_headered (cols : List String) (r : List String) : RowDict :=
  ⟨some (get_cell r (idx_of cols "FirstName")),
   some (get_cell r (idx_of cols "LastName")),
   some (get_cell r (idx_of cols "DateOfBirth"))⟩

/-- Positional projection: first three cells are FirstName, LastName,
DateOfBirth (run.py:210-213). -/
def project_positional (r : List String) : RowDict :=
  ⟨some (get_cell r 0), some (get_cell r 1), some (get_cell r 2)⟩

/-- The `ValueError` message of `load_csv_flex` (run.py:215-218). -/
def missing_columns_msg : String :=
  "Missing required columns. Expect FirstName, LastName, DateOfBirth "
    ++ "(with headers in any order or as the first three columns)."

/-- Embedding of `load_csv_flex` (run.py:193-218) on an already-tokenized
rectangular table (each element one CSV line, split into cells; byte decoding
and CSV field splitting are pandas behavior outside the embedding).  Headered
parse first: canonicalize the first line through the alias table and, if all
three canonical columns resolve, project the remaining lines onto them.
Otherwise retry headerless, taking the first three columns positionally from
every line (the first line included).  If fewer than three columns exist, fail
with the missing-columns `ValueError`.  An empty table models the
`pandas.errors.EmptyDataError` raised before any column resolution. -/
def load_csv_flex (table : List (List String)) : Except String (List RowDict) :=
  match table with
  | [] => .error "No columns to parse from file"
  | header :: body =>
    let cols := header.map fun c => (canon_header c).getD c
    if REQUIRED_COLS.all (fun c => cols.contains c) then
      .ok (body.map (project_headered cols))
    else if 3 ≤ header.length then
      .ok ((header :: body).map project_positional)
    else .error missing_columns_msg

/-- The whitespace trim applied to every cell before validation
(run.py:296-298). -/
def strip_cells (r : RowDict) : RowDict :=
  ⟨some (py_strip (py_or_empty r.FirstName)),
   some (py_strip (py_or_empty r.LastName)),
   some (py_strip (py_or_empty r.DateOfBirth))⟩

/-- A record queued for insertion (run.py:310-316). -/
structure InsertRec where
  FirstName : String
  LastName : String
  DateISO : String
deriving DecidableEq, Repr

/-- Extract the payload of a successful normalization; the error branch is
unreachable where this is used (validation already succeeded on the same
input — see `validate_row_ok_norm_ok`). -/
def get_ok (e : Except String String) : String :=
  match e with
  | .ok v => v
  | .error _ => ""

/-- Embedding of the row loop of the bulk branch of `record_participation`
(run.py:300-316): every row is validated; a row with errors contributes
`(dataframe index + 2, messages)` to the error report and is skipped; an
error-free row is converted to an `InsertRec`, calling the normalizer a second
time for `DateISO`. -/
def process_rows (norm : String → Except String String) :
    Nat → List RowDict → List (Nat × List String) × List InsertRec
  | _, [] => ([], [])
  | idx, row :: rest =>
    let tail := process_rows norm (idx + 1) rest
    let row_errs := validate_row norm row
    if row_errs.isEmpty then
      (tail.1,
       ⟨py_or_empty row.FirstName, py_or_empty row.LastName,
        get_ok (norm (py_or_empty row.DateOfBirth))⟩ :: tail.2)
    else ((idx + 2, row_errs) :: tail.1, tail.2)

/-- Outcome of the bulk branch of `record_participation` (run.py:318-364). -/
inductive BatchOutcome where
  | rejected (errors : List (Nat × List String))
  | no_valid_rows
  | inserted (records : List InsertRec)
deriving DecidableEq, Repr

/-- Embedding of the decision structure of the bulk branch of
`record_participation` after `load_csv_flex` (run.py:296-364): trim all cells,
validate every row, reject the whole batch when any error exists (no insert),
flag an empty valid set, otherwise insert exactly the converted rows. -/
def record_participation_bulk (norm : String → Except String String)
    (df : List RowDict) : BatchOutcome :=
  let res := process_rows norm 0 (df.map strip_cells)
  if !res.1.isEmpty then .rejected res.1
  else if res.2.isEmpty then .no_valid_rows
  else .inserted res.2

/-- Number of `parse_any_date` invocations performed by one `validate_row` call
(run.py:231-235): exactly one when `DateOfBirth` is non-blank, else zero. -/
def validate_row_calls (row : RowDict) : Nat :=
  if is_blank row.DateOfBirth then 0 else 1

/-- Total number of `parse_any_date` invocations performed by the bulk row loop
(run.py:300-316): per row, the calls made inside `validate_row` plus one more
call at run.py:314 when the row validated cleanly. -/
def process_rows_calls (norm : String → Except String String) : List RowDict → Nat
  | [] => 0
  | row :: rest =>
    validate_row_calls row
      + (if (validate_row norm row).isEmpty then 1 else 0)
      + process_rows_calls norm rest

/-- Modelled from the spec: `validate_row` with the normalization result
obtained during validation cached for reuse ("date normalized once, result
cached", spec §4.2).  Returns the messages together with the cached canonical
date. -/
def validate_row_cached (norm : String → Except String String) (row : RowDict) :
    List String × Option String :=
  (validate_row norm row,
   if is_blank row.DateOfBirth then none
   else (norm (py_or_empty row.DateOfBirth)).toOption)

/-- Modelled from the spec: the bulk row loop reusing the cached normalization
result instead of invoking the normalizer a second time. -/
def process_rows_cached (norm : String → Except String String) :
    Nat → List RowDict → List (Nat × List String) × List InsertRec
  | _, [] => ([], [])
  | idx, row :: rest =>
    let tail := process_rows_cached norm (idx + 1) rest
    let c := validate_row_cached norm row
    if c.1.isEmpty then
      (tail.1,
       ⟨py_or_empty row.FirstName, py_or_empty row.LastName, c.2.getD ""⟩ :: tail.2)
    else ((idx + 2, c.1) :: tail.1, tail.2)

/-- The decoder state of a UTF-8 decode in progress: `none` when the next byte
must be a lead byte; `some (acc, need, lo, hi)` in the middle of a multi-byte
sequence, where `acc` holds the accumulated code-point bits, `need` counts the
continuation bytes still expected, and the next byte must lie in `[lo, hi]`
(the RFC 3629 well-formedness table, which CPython enforces: restricted ranges
after `E0`/`ED`/`F0`/`F4` exclude overlong forms, surrogates and values beyond
U+10FFFF). -/
def Utf8State : Type := Option (Nat × Nat × Nat × Nat)

/-- Lower bound for the byte following a lead byte `b`. -/
def utf8_lo (b : Nat) : Nat :=
  if b = 0xE0 then 0xA0 else if b = 0xF0 then 0x90 else 0x80

/-- Upper bound for the byte following a lead byte `b`. -/
def utf8_hi (b : Nat) : Nat :=
  if b = 0xED then 0x9F else if b = 0xF4 then 0x8F else 0xBF

/-- Process one byte as a lead byte: emitted output plus the new state.  ASCII
is emitted directly; well-formed lead bytes open a pending sequence; anything
else (`C0`, `C1`, `F5..FF`, or a stray continuation byte) is an undecodable
byte, dropped with no output — the `errors="ignore"` policy. -/
def utf8_start (b : Nat) : List Nat × Utf8State :=
  if b ≤ 0x7F then ([b], none)
  else if 0xC2 ≤ b ∧ b ≤ 0xDF then ([], some (b - 0xC0, 1, utf8_lo b, utf8_hi b))
  else if 0xE0 ≤ b ∧ b ≤ 0xEF then ([], some (b - 0xE0, 2, utf8_lo b, utf8_hi b))
  else if 0xF0 ≤ b ∧ b ≤ 0xF4 then ([], some (b - 0xF0, 3, utf8_lo b, utf8_hi b))
  else ([], none)

/-- The byte loop of `bytes.decode("utf-8", errors="ignore")` (run.py:201).
When a continuation byte is out of range, the pending (maximal subpart) bytes
are dropped and decoding resumes at the offending byte, per CPython error
handling; a sequence truncated by end of input is likewise dropped.  No input
ever raises. -/
def utf8_run : Utf8State → List Nat → List Nat
  | _, [] => []
  | none, b :: rest =>
    ((utf8_start b).1) ++ utf8_run (utf8_start b).2 rest
  | some (acc, need, lo, hi), b :: rest =>
    if lo ≤ b ∧ b ≤ hi then
      if need = 1 then (acc * 0x40 + (b - 0x80)) :: utf8_run none rest
      else utf8_run (some (acc * 0x40 + (b - 0x80), need - 1, 0x80, 0xBF)) rest
    else ((utf8_start b).1) ++ utf8_run (utf8_start b).2 rest

/-- Embedding of `raw.decode("utf-8", errors="ignore")` (run.py:201): decode a
byte list to a code-point list, silently dropping undecodable byte sequences
(nothing is emitted for them) and never raising. -/
def utf8_decode_ignore (l : List Nat) : List Nat := utf8_run none l

/-- UTF-8 encoding of one Unicode scalar value. -/
def utf8_encode_char (c : Nat) : List Nat :=
  if c ≤ 0x7F then [c]
  else if c ≤ 0x7FF then [0xC0 + c / 0x40, 0x80 + c % 0x40]
  else if c ≤ 0xFFFF then [0xE0 + c / 0x1000, 0x80 + c / 0x40 % 0x40, 0x80 + c % 0x40]
  else [0xF0 + c / 0x40000, 0x80 + c / 0x1000 % 0x40, 0x80 + c / 0x40 % 0x40, 0x80 + c % 0x40]

/-- UTF-8 encoding of a code-point list. -/
def utf8_encode (l : List Nat) : List Nat :=
  l.foldr (fun c acc => utf8_encode_char c ++ acc) []

/-- A Unicode scalar value: in range and not a surrogate. -/
def valid_scalar (c : Nat) : Prop := c ≤ 0x10FFFF ∧ ¬(0xD800 ≤ c ∧ c ≤ 0xDFFF)

/-- The normalizer used to instantiate batch theorems: `parse_any_date` with
the default day-first preference at the fixed current date `today0`. -/
def norm0 : String → Except String String := fun s => parse_any_date fb0 s true today0

/-! ### Helper lemmas on the date normalizer -/

theorem build_date_eq_some {y m d : Nat} {dt : Date} (h : build_date y m d = some dt) :
    dt = ⟨y, m, d⟩ ∧ validYMD y m d = true := by
  unfold build_date at h
  split at h
  · exact ⟨(Option.some.inj h).symm, by assumption⟩
  · exact absurd h (by simp)

theorem build_date_valid {y m d : Nat} {dt : Date} (h : build_date y m d = some dt) :
    valid_date dt = true := by
  rcases build_date_eq_some h with ⟨hdt, hv⟩
  rw [hdt]
  exact hv

theorem first_some_eq_some {l : List (Option Date)} {d : Date}
    (h : first_some l = some d) : some d ∈ l := by
  induction l with
  | nil => simp [first_some] at h
  | cons o rest ih =>
    cases o with
    | some x =>
      simp only [first_some, Option.some.injEq] at h
      simp [h]
    | none =>
      simp only [first_some] at h
      exact List.mem_cons_of_mem _ (ih h)

theorem parse_digits_compact_valid {s : String} {p : Bool} {dt : Date}
    (h : parse_digits_compact s p = some dt) : valid_date dt = true := by
  unfold parse_digits_compact at h
  split at h
  · exact absurd h (by simp)
  · split at h
    · split at h <;>
      · have hm := first_some_eq_some h
        simp only [build, List.mem_cons, List.not_mem_nil, or_false] at hm
        rcases hm with h1 | h1 | h1 <;> exact build_date_valid h1.symm
    · split at h
      · split at h <;>
        · have hm := first_some_eq_some h
          simp only [List.mem_cons, List.not_mem_nil, or_false] at hm
          rcases hm with h1 | h1 <;> exact build_date_valid h1.symm
      · exact absurd h (by simp)

theorem apply_century_sanity_valid {dt today d : Date} (hv : valid_date dt = true)
    (h : apply_century_sanity dt today = some d) : valid_date d = true := by
  unfold apply_century_sanity at h
  split at h
  · cases hb : build_date (dt.year - 100) dt.month dt.day with
    | some x =>
      rw [hb, Option.some.injEq] at h
      rw [← h]
      exact build_date_valid hb
    | none =>
      rw [hb] at h
      exact build_date_valid h
  · rw [Option.some.injEq] at h
    rw [← h]
    exact hv

theorem fb0_valid : fb_valid fb0 := by
  intro s b dt h
  simp [fb0] at h

theorem finish_fallback_valid {dt today d : Date} (hv : valid_date dt = true)
    (h : finish_fallback dt today = .ok d) : valid_date d = true := by
  unfold finish_fallback at h
  split at h
  · rename_i x h2
    rw [Except.ok.injEq] at h
    rw [← h]
    exact apply_century_sanity_valid hv h2
  · exact absurd h (by simp)

theorem fallback_stage_valid {fb : String → Bool → Option Date} {s dob : String}
    {pref : Bool} {today d : Date} (hfb : fb_valid fb)
    (h : fallback_stage fb s dob pref today = .ok d) : valid_date d = true := by
  unfold fallback_stage at h
  split at h
  · rename_i dt h1
    exact finish_fallback_valid (hfb _ _ _ h1) h
  · split at h
    · rename_i dt h3
      exact finish_fallback_valid (hfb _ _ _ h3) h
    · exact absurd h (by simp)

theorem parse_any_date_dt_valid {fb : String → Bool → Option Date} {dob : String}
    {pref : Bool} {today d : Date} (hfb : fb_valid fb)
    (h : parse_any_date_dt fb dob pref today = .ok d) : valid_date d = true := by
  unfold parse_any_date_dt at h
  split at h
  · exact absurd h (by simp)
  · split at h
    · rename_i dt h1
      split at h
      · rename_i x h2
        rw [Except.ok.injEq] at h
        rw [← h]
        exact apply_century_sanity_valid (parse_digits_compact_valid h1) h2
      · exact fallback_stage_valid hfb h
    · exact fallback_stage_valid hfb h

/-! ### C1 -/

/-- C1 is refuted on the code as stated: the input "99991231" (day-first)
parses through the YYYYMMDD decomposition to 9999-12-31; `_apply_century_sanity`
subtracts 100 years exactly once, producing 9899-12-31 — a successful output
strictly later than the current date (2026-10-12). -/
theorem c1_counterexample :
    parse_any_date_dt fb0 "99991231" true today0 = .ok ⟨9899, 12, 31⟩
    ∧ date_lt today0 ⟨9899, 12, 31⟩ :=
  ⟨rfl, by decide⟩

/-- C1 (amended): every successful normalization returns a real Gregorian
date; the century correction subtracts 100 years at most once, so the output
is guaranteed not to be strictly later than the current date only when the
parsed date's year is at most 99 years beyond the current year (otherwise the
output can remain in the future, see `c1_counterexample`); and a shifted
29 February landing in a non-leap year is clamped to 28 February of the
shifted year. -/
theorem c1_century_sanity_amended :
    (∀ fb dob pref today d, fb_valid fb →
      parse_any_date_dt fb dob pref today = .ok d → valid_date d = true)
    ∧ (∀ dt today d, valid_date dt = true →
        apply_century_sanity dt today = some d →
        dt.year ≤ today.year + 99 → ¬ date_lt today d)
    ∧ (∀ dt today, valid_date dt = true → date_lt today dt → 101 ≤ dt.year →
        dt.month = 2 → dt.day = 29 → is_leap (dt.year - 100) = false →
        apply_century_sanity dt today = some ⟨dt.year - 100, 2, 28⟩) := by
  refine ⟨fun fb dob pref today d hfb h => parse_any_date_dt_valid hfb h, ?_, ?_⟩
  · intro dt today d hv h hbound
    unfold apply_century_sanity at h
    split at h
    · have hy : 101 ≤ dt.year ∧ d.year = dt.year - 100 := by
        cases hb : build_date (dt.year - 100) dt.month dt.day with
        | some x =>
          rw [hb, Option.some.injEq] at h
          rcases build_date_eq_some hb with ⟨hx, hvx⟩
          rw [← h, hx]
          simp only [validYMD, decide_eq_true_eq] at hvx
          exact ⟨by omega, rfl⟩
        | none =>
          rw [hb] at h
          rcases build_date_eq_some h with ⟨hx, hvx⟩
          rw [hx]
          simp only [validYMD, decide_eq_true_eq] at hvx
          exact ⟨by omega, rfl⟩
      unfold date_lt
      omega
    · rw [Option.some.injEq] at h
      rw [← h]
      assumption
  · intro dt today hv hlt hy hm hd hleap
    have hdim : days_in_month (dt.year - 100) 2 = 28 := by
      simp [days_in_month, hleap]
    unfold valid_date validYMD at hv
    simp only [decide_eq_true_eq] at hv
    have h29 : validYMD (dt.year - 100) 2 29 = false := by
      simp only [validYMD, hdim, decide_eq_false_iff_not]
      omega
    have h28 : validYMD (dt.year - 100) 2 28 = true := by
      simp only [validYMD, hdim, decide_eq_true_eq]
      omega
    unfold apply_century_sanity
    rw [if_pos hlt, hm, hd]
    simp [build_date, h29, h28]

/-- Witness for `c1_century_sanity_amended` at concrete inputs: a valid output
for "14022013"; 2096-02-29 (within 99 years of 2026) is shifted to 1996-02-29,
not in the future; 2400-02-29 (2300 non-leap) clamps to 2300-02-28. -/
theorem c1_century_sanity_amended_witness :
    valid_date ⟨2013, 2, 14⟩ = true
    ∧ ¬ date_lt today0 ⟨1996, 2, 29⟩
    ∧ apply_century_sanity ⟨2400, 2, 29⟩ today0 = some ⟨2300, 2, 28⟩ :=
  ⟨c1_century_sanity_amended.1 fb0 "14022013" true today0 ⟨2013, 2, 14⟩ fb0_valid rfl,
   c1_century_sanity_amended.2.1 ⟨2096, 2, 29⟩ today0 ⟨1996, 2, 29⟩ (by decide)
     (by decide) (by decide),
   c1_century_sanity_amended.2.2 ⟨2400, 2, 29⟩ today0 (by decide) (by decide)
     (by decide) rfl rfl (by decide)⟩

/-! ### Helper lemmas on the UTF-8 decoder -/

instance valid_scalar_dec (c : Nat) : Decidable (valid_scalar c) := by
  unfold valid_scalar; exact inferInstance

theorem utf8_run_none_cons (b : Nat) (bs : List Nat) :
    utf8_run none (b :: bs) = (utf8_start b).1 ++ utf8_run (utf8_start b).2 bs := rfl

theorem utf8_run_some_cons (acc need lo hi b : Nat) (bs : List Nat) :
    utf8_run (some (acc, need, lo, hi)) (b :: bs) =
      if lo ≤ b ∧ b ≤ hi then
        if need = 1 then (acc * 0x40 + (b - 0x80)) :: utf8_run none bs
        else utf8_run (some (acc * 0x40 + (b - 0x80), need - 1, 0x80, 0xBF)) bs
      else (utf8_start b).1 ++ utf8_run (utf8_start b).2 bs := rfl

theorem utf8_start_ascii {b : Nat} (h : b ≤ 0x7F) : utf8_start b = ([b], none) := by
  unfold utf8_start
  rw [if_pos h]

theorem utf8_start_two {b : Nat} (h : 0xC2 ≤ b ∧ b ≤ 0xDF) :
    utf8_start b = ([], some (b - 0xC0, 1, 0x80, 0xBF)) := by
  unfold utf8_start
  rw [if_neg (by omega), if_pos h]
  unfold utf8_lo utf8_hi
  rw [if_neg (by omega), if_neg (by omega), if_neg (by omega), if_neg (by omega)]

theorem utf8_start_three {b : Nat} (h : 0xE0 ≤ b ∧ b ≤ 0xEF) :
    utf8_start b = ([], some (b - 0xE0, 2, utf8_lo b, utf8_hi b)) := by
  unfold utf8_start
  rw [if_neg (by omega), if_neg (by omega), if_pos h]

theorem utf8_start_four {b : Nat} (h : 0xF0 ≤ b ∧ b ≤ 0xF4) :
    utf8_start b = ([], some (b - 0xF0, 3, utf8_lo b, utf8_hi b)) := by
  unfold utf8_start
  rw [if_neg (by omega), if_neg (by omega), if_neg (by omega), if_pos h]

theorem utf8_start_bad {b : Nat} (h : b = 0xC0 ∨ b = 0xC1 ∨ (0xF5 ≤ b ∧ b ≤ 0xFF)) :
    utf8_start b = ([], none) := by
  unfold utf8_start
  rw [if_neg (by omega), if_neg (by omega), if_neg (by omega), if_neg (by omega)]

theorem utf8_decode_encode_char (c : Nat) (hc : valid_scalar c) (bs : List Nat) :
    utf8_run none (utf8_encode_char c ++ bs) = c :: utf8_run none bs := by
  obtain ⟨hle, hsur⟩ := hc
  by_cases h1 : c ≤ 0x7F
  · simp only [utf8_encode_char, if_pos h1, List.cons_append, List.nil_append]
    rw [utf8_run_none_cons, utf8_start_ascii h1]
    simp
  · by_cases h2 : c ≤ 0x7FF
    · simp only [utf8_encode_char, if_neg h1, if_pos h2, List.cons_append, List.nil_append]
      rw [utf8_run_none_cons, utf8_start_two ⟨by omega, by omega⟩]
      simp only [List.nil_append]
      rw [utf8_run_some_cons, if_pos ⟨by omega, by omega⟩, if_pos rfl]
      simp only [List.cons.injEq, and_true]
      omega
    · by_cases h3 : c ≤ 0xFFFF
      · have hb1 : 0xE0 ≤ 0xE0 + c / 0x1000 ∧ 0xE0 + c / 0x1000 ≤ 0xEF := by omega
        have hlo : utf8_lo (0xE0 + c / 0x1000) ≤ 0x80 + c / 0x40 % 0x40 := by
          unfold utf8_lo
          split
          · rename_i he
            omega
          · split
            · rename_i _ hf
              omega
            · omega
        have hhi : 0x80 + c / 0x40 % 0x40 ≤ utf8_hi (0xE0 + c / 0x1000) := by
          unfold utf8_hi
          split
          · rename_i he
            omega
          · split
            · rename_i _ hf
              omega
            · omega
        simp only [utf8_encode_char, if_neg h1, if_neg h2, if_pos h3, List.cons_append,
          List.nil_append]
        rw [utf8_run_none_cons, utf8_start_three hb1]
        simp only [List.nil_append]
        rw [utf8_run_some_cons, if_pos ⟨hlo, hhi⟩, if_neg (by norm_num)]
        rw [utf8_run_some_cons, if_pos ⟨by omega, by omega⟩, if_pos (by norm_num)]
        simp only [List.cons.injEq, and_true]
        omega
      · have hb1 : 0xF0 ≤ 0xF0 + c / 0x40000 ∧ 0xF0 + c / 0x40000 ≤ 0xF4 := by omega
        have hlo : utf8_lo (0xF0 + c / 0x40000) ≤ 0x80 + c / 0x1000 % 0x40 := by
          unfold utf8_lo
          split
          · rename_i he
            omega
          · split
            · rename_i _ hf
              omega
            · omega
        have hhi : 0x80 + c / 0x1000 % 0x40 ≤ utf8_hi (0xF0 + c / 0x40000) := by
          unfold utf8_hi
          split
          · rename_i he
            omega
          · split
            · rename_i _ hf
              omega
            · omega
        simp only [utf8_encode_char, if_neg h1, if_neg h2, if_neg h3, List.cons_append,
          List.nil_append]
        rw [utf8_run_none_cons, utf8_start_four hb1]
        simp only [List.nil_append]
        rw [utf8_run_some_cons, if_pos ⟨hlo, hhi⟩, if_neg (by norm_num)]
        rw [utf8_run_some_cons, if_pos ⟨by omega, by omega⟩, if_neg (by norm_num)]
        rw [utf8_run_some_cons, if_pos ⟨by omega, by omega⟩, if_pos (by norm_num)]
        simp only [List.cons.injEq, and_true]
        omega

/-! ### C6 -/

/-- C6 is refuted on the code as stated: the loader decodes with
`errors="ignore"`, so the undecodable byte `0xFF` in `[0x41, 0xFF, 0x42]`
yields nothing in the decoded text — no replacement character (U+FFFD) and no
character at all — rather than "each such sequence yields a replacement". -/
theorem c6_counterexample :
    utf8_decode_ignore [0x41, 0xFF, 0x42] = [0x41, 0x42]
    ∧ ¬ (0xFFFD ∈ utf8_decode_ignore [0x41, 0xFF, 0x42]) := by decide

/-- C6 (amended): decoding never raises for any byte input, and undecodable
byte sequences are dropped (ignored) — they contribute nothing to the decoded
text — rather than being replaced: well-formed UTF-8 decodes exactly, and an
undecodable byte (`C0`, `C1`, `F5..FF`) is skipped with no output. -/
theorem c6_decode_ignore_amended :
    (∀ l : List Nat, (∀ c ∈ l, valid_scalar c) → utf8_decode_ignore (utf8_encode l) = l)
    ∧ (∀ (b : Nat) (bs : List Nat), b = 0xC0 ∨ b = 0xC1 ∨ (0xF5 ≤ b ∧ b ≤ 0xFF) →
        utf8_decode_ignore (b :: bs) = utf8_decode_ignore bs) := by
  constructor
  · intro l
    unfold utf8_decode_ignore
    induction l with
    | nil => intro _; rfl
    | cons c rest ih =>
      intro hl
      show utf8_run none (utf8_encode_char c ++ utf8_encode rest) = c :: rest
      rw [utf8_decode_encode_char c (hl c (by simp))]
      rw [ih fun x hx => hl x (List.mem_cons_of_mem _ hx)]
  · intro b bs hb
    unfold utf8_decode_ignore
    rw [utf8_run_none_cons, utf8_start_bad hb]
    simp

/-- Witness for `c6_decode_ignore_amended`: the two-character text "K€"
round-trips through encoding and decoding, and a leading `0xFF` byte is
dropped without affecting the rest. -/
theorem c6_decode_ignore_amended_witness :
    utf8_decode_ignore (utf8_encode [0x4B, 0x20AC]) = [0x4B, 0x20AC]
    ∧ utf8_decode_ignore [0xFF, 0x41] = utf8_decode_ignore [0x41] :=
  ⟨c6_decode_ignore_amended.1 [0x4B, 0x20AC] (by decide),
   c6_decode_ignore_amended.2 0xFF [0x41] (by decide)⟩

/-! ### C7 -/

/-- C7: `validate_row` performs the blank checks on FirstName, LastName and
DateOfBirth independently, without short-circuiting — each blank field
contributes its own field-specific message, and a row with both names blank
gets both messages; the date-normalization check runs only when DateOfBirth is
non-blank (the result is independent of the normalizer when it is blank), and
the normalizer's failure message is appended verbatim. -/
theorem c7_validate_row_independent :
    ∀ (norm : String → Except String String) (row : RowDict),
      (is_blank row.FirstName = true → "FirstName is required" ∈ validate_row norm row)
      ∧ (is_blank row.LastName = true → "LastName is required" ∈ validate_row norm row)
      ∧ (is_blank row.DateOfBirth = true → "DateOfBirth is required" ∈ validate_row norm row)
      ∧ (is_blank row.DateOfBirth = true →
          ∀ norm2, validate_row norm row = validate_row norm2 row)
      ∧ (∀ e, is_blank row.DateOfBirth = false →
          norm (py_or_empty row.DateOfBirth) = .error e → e ∈ validate_row norm row)
      ∧ (is_blank row.FirstName = true → is_blank row.LastName = true →
          "FirstName is required" ∈ validate_row norm row
          ∧ "LastName is required" ∈ validate_row norm row) := by
  intro norm row
  refine ⟨?_, ?_, ?_, ?_, ?_, ?_⟩
  · intro h
    simp [validate_row, h]
  · intro h
    simp [validate_row, h]
  · intro h
    simp [validate_row, h]
  · intro h norm2
    simp [validate_row, h]
  · intro e hb he
    simp [validate_row, hb, he]
  · intro h1 h2
    constructor <;> simp [validate_row, h1, h2]

/-- Witness for `c7_validate_row_independent`: a row with blank FirstName,
blank LastName and the unparseable DateOfBirth "abc" receives both name
messages and the normalizer's message verbatim. -/
theorem c7_validate_row_independent_witness :
    "FirstName is required" ∈ validate_row norm0 ⟨some " ", some "", some "abc"⟩
    ∧ "LastName is required" ∈ validate_row norm0 ⟨some " ", some "", some "abc"⟩
    ∧ invalid_date_msg "abc" ∈ validate_row norm0 ⟨some " ", some "", some "abc"⟩ := by
  have h := c7_validate_row_independent norm0 ⟨some " ", some "", some "abc"⟩
  exact ⟨(h.2.2.2.2.2 (by decide) (by decide)).1,
         (h.2.2.2.2.2 (by decide) (by decide)).2,
         h.2.2.2.2.1 (invalid_date_msg "abc") (by decide) rfl⟩

/-! ### C10 -/

/-- C10: `validate_row` is total over arbitrary record dictionaries — a key
that is absent or mapped to Python `None` (both embedded as `none`) behaves
exactly like the empty string, producing the corresponding "is required"
message and never an exception, and the normalizer is consulted only when
DateOfBirth is present and non-blank (a missing DateOfBirth makes the result
independent of the normalizer). -/
theorem c10_validate_row_total :
    ∀ (norm : String → Except String String) (f l dob : Option String),
      validate_row norm ⟨none, l, dob⟩ = validate_row norm ⟨some "", l, dob⟩
      ∧ validate_row norm ⟨f, none, dob⟩ = validate_row norm ⟨f, some "", dob⟩
      ∧ validate_row norm ⟨f, l, none⟩ = validate_row norm ⟨f, l, some ""⟩
      ∧ "FirstName is required" ∈ validate_row norm ⟨none, l, dob⟩
      ∧ "LastName is required" ∈ validate_row norm ⟨f, none, dob⟩
      ∧ "DateOfBirth is required" ∈ validate_row norm ⟨f, l, none⟩
      ∧ (∀ norm2, validate_row norm ⟨f, l, none⟩ = validate_row norm2 ⟨f, l, none⟩) := by
  intro norm f l dob
  refine ⟨rfl, rfl, rfl, ?_, ?_, ?_, ?_⟩
  · simp [validate_row, is_blank, py_or_empty, py_strip]
  · simp [validate_row, is_blank, py_or_empty, py_strip]
  · simp [validate_row, is_blank, py_or_empty, py_strip]
  · intro norm2
    simp [validate_row, is_blank, py_or_empty, py_strip]

/-! ### C8 -/

/-- C8: for every nonempty tokenized table, the loader first attempts
header-based alias mapping (lower-case, strip non-alphanumerics, alias-table
lookup of the first line); exactly when that fails to resolve all three
canonical keys it retries headerless, assigning the first three columns
positionally (first line included as data); and it fails with the
missing-columns error exactly when the positional fallback also finds fewer
than three columns.  (An empty upload raises pandas `EmptyDataError` before
any column resolution and is outside this model's table domain.) -/
theorem c8_loader_fallback :
    ∀ (header : List String) (body : List (List String)),
      (REQUIRED_COLS.all (fun c =>
          (header.map fun c2 => (canon_header c2).getD c2).contains c) = true →
        load_csv_flex (header :: body)
          = .ok (body.map (project_headered
              (header.map fun c2 => (canon_header c2).getD c2))))
      ∧ (REQUIRED_COLS.all (fun c =>
          (header.map fun c2 => (canon_header c2).getD c2).contains c) = false →
          3 ≤ header.length →
          load_csv_flex (header :: body) = .ok ((header :: body).map project_positional))
      ∧ (load_csv_flex (header :: body) = .error missing_columns_msg
          ↔ REQUIRED_COLS.all (fun c =>
              (header.map fun c2 => (canon_header c2).getD c2).contains c) = false
            ∧ header.length < 3) := by
  intro header body
  refine ⟨?_, ?_, ?_⟩
  · intro h
    simp only [load_csv_flex]
    rw [if_pos h]
  · intro h hlen
    simp only [load_csv_flex]
    rw [if_neg (by rw [h]; decide), if_pos hlen]
  · by_cases hall : REQUIRED_COLS.all (fun c =>
        (header.map fun c2 => (canon_header c2).getD c2).contains c) = true
    · simp only [load_csv_flex]
      rw [if_pos hall]
      constructor
      · intro hc
        exact absurd hc (by simp)
      · rintro ⟨h1, _⟩
        rw [hall] at h1
        cases h1
    · have hall2 : REQUIRED_COLS.all (fun c =>
          (header.map fun c2 => (canon_header c2).getD c2).contains c) = false := by
        simpa using hall
      by_cases hlen : 3 ≤ header.length
      · simp only [load_csv_flex]
        rw [if_neg (by rw [hall2]; decide), if_pos hlen]
        constructor
        · intro hc
          exact absurd hc (by simp)
        · rintro ⟨_, h2⟩
          omega
      · simp only [load_csv_flex]
        rw [if_neg (by rw [hall2]; decide), if_neg hlen]
        constructor
        · intro _
          exact ⟨hall2, by omega⟩
        · intro _
          rfl

/-- Witness for `c8_loader_fallback`: the spec's own examples — a headered
file with columns `DOB,Surname,GivenName` remaps by alias regardless of order;
a headerless line `Jane,Doe,14/02/2013` maps positionally; a two-column file
fails with the missing-columns error. -/
theorem c8_loader_fallback_witness :
    load_csv_flex [["DOB", "Surname", "GivenName"], ["14/02/2013", "Doe", "Jane"]]
      = .ok [⟨some "Jane", some "Doe", some "14/02/2013"⟩]
    ∧ load_csv_flex [["Jane", "Doe", "14/02/2013"]]
      = .ok [⟨some "Jane", some "Doe", some "14/02/2013"⟩]
    ∧ load_csv_flex [["a", "b"]] = .error missing_columns_msg := by
  refine ⟨?_, ?_, ?_⟩
  · have h := (c8_loader_fallback ["DOB", "Surname", "GivenName"]
      [["14/02/2013", "Doe", "Jane"]]).1 (by decide)
    exact h.trans (by rfl)
  · have h := (c8_loader_fallback ["Jane", "Doe", "14/02/2013"] []).2.1
      (by decide) (by decide)
    exact h.trans (by rfl)
  · exact (c8_loader_fallback ["a", "b"] []).2.2.mpr ⟨by decide, by decide⟩

/-! ### Spec-side comparators for the compact-date decomposition (C3) -/

/-- Spec-side validity of a decomposition, following the spec's words: "a
valid calendar date (month 1-12, day valid for that month/year, including
leap-year rules)"; a proleptic Gregorian calendar date also requires a
positive year (there is no year zero). -/
def spec_valid_date (y m d : Nat) : Prop :=
  1 ≤ y ∧ 1 ≤ m ∧ m ≤ 12 ∧ 1 ≤ d ∧ d ≤ days_in_month y m

instance spec_valid_date_dec (y m d : Nat) : Decidable (spec_valid_date y m d) := by
  unfold spec_valid_date; exact inferInstance

/-- Spec-side "accept the first decomposition that forms a valid calendar
date" over a list of (year, month, day) candidates. -/
def spec_first_valid : List (Nat × Nat × Nat) → Option Date
  | [] => none
  | (y, m, d) :: rest =>
    if spec_valid_date y m d then some ⟨y, m, d⟩ else spec_first_valid rest

/-- Spec-side decomposition order for 8 digits: "day-month-year,
year-month-day, month-day-year — day-first preference tries DMY, then YMD,
then MDY; month-first tries MDY, then YMD, then DMY". -/
def spec_order8 (s : String) (dayFirst : Bool) : List (Nat × Nat × Nat) :=
  if dayFirst then
    [(toNat10 (slice s 4 8), toNat10 (slice s 2 4), toNat10 (slice s 0 2)),
     (toNat10 (slice s 0 4), toNat10 (slice s 4 6), toNat10 (slice s 6 8)),
     (toNat10 (slice s 4 8), toNat10 (slice s 0 2), toNat10 (slice s 2 4))]
  else
    [(toNat10 (slice s 4 8), toNat10 (slice s 0 2), toNat10 (slice s 2 4)),
     (toNat10 (slice s 0 4), toNat10 (slice s 4 6), toNat10 (slice s 6 8)),
     (toNat10 (slice s 4 8), toNat10 (slice s 2 4), toNat10 (slice s 0 2))]

/-- Spec-side two-digit-year pivot: "values ≤ 30 map to 2000+value, values
> 30 map to 1900+value". -/
def spec_pivot_year (v : Nat) : Nat := if v ≤ 30 then 2000 + v else 1900 + v

/-- Spec-side decomposition order for 6 digits: trailing two digits are the
pivoted year; "day-month-year then month-day-year (or reversed order per
dayFirst)". -/
def spec_order6 (s : String) (dayFirst : Bool) : List (Nat × Nat × Nat) :=
  if dayFirst then
    [(spec_pivot_year (toNat10 (slice s 4 6)), toNat10 (slice s 2 4), toNat10 (slice s 0 2)),
     (spec_pivot_year (toNat10 (slice s 4 6)), toNat10 (slice s 0 2), toNat10 (slice s 2 4))]
  else
    [(spec_pivot_year (toNat10 (slice s 4 6)), toNat10 (slice s 0 2), toNat10 (slice s 2 4)),
     (spec_pivot_year (toNat10 (slice s 4 6)), toNat10 (slice s 2 4), toNat10 (slice s 0 2))]

theorem char_digit_toNat {c : Char} (h : c.isDigit = true) :
    48 ≤ c.toNat ∧ c.toNat ≤ 57 := by
  simp [Char.isDigit] at h
  exact ⟨h.1, h.2⟩

theorem toNat10_foldl_lt (l : List Char) (hd : ∀ c ∈ l, c.isDigit = true) :
    ∀ a : Nat, List.foldl (fun a c => a * 10 + (c.toNat - 48)) a l
      < (a + 1) * 10 ^ l.length := by
  induction l with
  | nil => intro a; simp
  | cons c rest ih =>
    intro a
    have hc := char_digit_toNat (hd c (by simp))
    have hr := ih (fun x hx => hd x (by simp [hx])) (a * 10 + (c.toNat - 48))
    simp only [List.foldl_cons, List.length_cons, pow_succ]
    have h1 : a * 10 + (c.toNat - 48) + 1 ≤ (a + 1) * 10 := by omega
    calc List.foldl (fun a c => a * 10 + (c.toNat - 48)) (a * 10 + (c.toNat - 48)) rest
        < (a * 10 + (c.toNat - 48) + 1) * 10 ^ rest.length := hr
      _ ≤ ((a + 1) * 10) * 10 ^ rest.length := Nat.mul_le_mul_right _ h1
      _ = (a + 1) * (10 ^ rest.length * 10) := by ring

theorem toNat10_lt {l : List Char} (hd : ∀ c ∈ l, c.isDigit = true) :
    toNat10 (String.mk l) < 10 ^ l.length := by
  have h := toNat10_foldl_lt l hd 0
  simpa [toNat10] using h

theorem slice_year_le {s : String} {i j : Nat} (hdig : s.data.all Char.isDigit = true)
    (hlen : j - i ≤ 4) : toNat10 (slice s i j) ≤ 9999 := by
  have hl : ((s.data.drop i).take (j - i)).length ≤ 4 := by
    simp only [List.length_take]
    omega
  have hd : ∀ c ∈ (s.data.drop i).take (j - i), c.isDigit = true := by
    intro c hc
    have hcs : c ∈ s.data := List.mem_of_mem_drop (List.mem_of_mem_take hc)
    exact List.all_eq_true.mp hdig c hcs
  have hb := toNat10_lt hd
  have hpow : 10 ^ ((s.data.drop i).take (j - i)).length ≤ 10 ^ 4 :=
    Nat.pow_le_pow_right (by norm_num) hl
  unfold slice
  omega

theorem validYMD_eq_spec {y m d : Nat} (hy : y ≤ 9999) :
    validYMD y m d = true ↔ spec_valid_date y m d := by
  simp only [validYMD, decide_eq_true_eq, spec_valid_date]
  constructor
  · rintro ⟨a, _, rest⟩
    exact ⟨a, rest⟩
  · rintro ⟨a, rest⟩
    exact ⟨a, hy, rest⟩

theorem first_some_build {y m d : Nat} (hy : y ≤ 9999) (l : List (Option Date)) :
    first_some (build_date y m d :: l)
      = if spec_valid_date y m d then some ⟨y, m, d⟩ else first_some l := by
  by_cases h : spec_valid_date y m d
  · rw [if_pos h]
    have hv : validYMD y m d = true := (validYMD_eq_spec hy).mpr h
    simp [build_date, hv, first_some]
  · rw [if_neg h]
    have hv : validYMD y m d = false := by
      cases hv0 : validYMD y m d with
      | false => rfl
      | true => exact absurd ((validYMD_eq_spec hy).mp hv0) h
    simp [build_date, hv, first_some]

theorem first_some_eq_spec :
    ∀ l : List (Nat × Nat × Nat), (∀ t ∈ l, t.1 ≤ 9999) →
      first_some (l.map fun t => build_date t.1 t.2.1 t.2.2) = spec_first_valid l := by
  intro l
  induction l with
  | nil => intro _; rfl
  | cons t rest ih =>
    intro hb
    obtain ⟨y, m, d⟩ := t
    have hy : y ≤ 9999 := hb (y, m, d) (by simp)
    simp only [List.map_cons]
    rw [first_some_build hy, spec_first_valid]
    by_cases h : spec_valid_date y m d
    · rw [if_pos h, if_pos h]
    · rw [if_neg h, if_neg h]
      exact ih fun t2 ht2 => hb t2 (by simp [ht2])

theorem slice_yy_le {s : String} {i j : Nat} (hdig : s.data.all Char.isDigit = true)
    (hlen : j - i ≤ 2) : toNat10 (slice s i j) ≤ 99 := by
  have hl : ((s.data.drop i).take (j - i)).length ≤ 2 := by
    simp only [List.length_take]
    omega
  have hd : ∀ c ∈ (s.data.drop i).take (j - i), c.isDigit = true := by
    intro c hc
    have hcs : c ∈ s.data := List.mem_of_mem_drop (List.mem_of_mem_take hc)
    exact List.all_eq_true.mp hdig c hcs
  have hb := toNat10_lt hd
  have hpow : 10 ^ ((s.data.drop i).take (j - i)).length ≤ 10 ^ 2 :=
    Nat.pow_le_pow_right (by norm_num) hl
  unfold slice
  omega

/-! ### C3 -/

/-- C3: on an 8-digit candidate, `_parse_digits_compact` realizes exactly the
spec's strategy — try DMY, YMD, MDY (day-first) or MDY, YMD, DMY (month-first)
and accept the first decomposition forming a valid calendar date; on a 6-digit
candidate the trailing two digits are the pivoted year (≤ 30 → 2000+v, else
1900+v) and the orders are DMY then MDY, reversed when not day-first; and the
two worked examples of the spec hold. -/
theorem c3_compact_decomposition_order :
    (∀ (s : String) (pref : Bool), s.length = 8 → s.data.all Char.isDigit = true →
      parse_digits_compact s pref = spec_first_valid (spec_order8 s pref))
    ∧ (∀ (s : String) (pref : Bool), s.length = 6 → s.data.all Char.isDigit = true →
      parse_digits_compact s pref = spec_first_valid (spec_order6 s pref))
    ∧ (∀ v, spec_pivot_year v = year_from_yy v)
    ∧ parse_any_date fb0 "14022013" true today0 = .ok "2013-02-14"
    ∧ parse_any_date fb0 "02142013" false today0 = .ok "2013-02-14" := by
  refine ⟨?_, ?_, fun v => rfl, rfl, rfl⟩
  · intro s pref hlen hdig
    have h8 : s.data.length = 8 := hlen
    have hpy : py_isdigit s = true := by
      have hne : s.data.isEmpty = false := by
        cases hh : s.data with
        | nil => rw [hh] at h8; simp at h8
        | cons a t => rfl
      simp [py_isdigit, hdig, hne]
    unfold parse_digits_compact
    rw [if_neg (by simp [hpy]), if_pos hlen]
    have hy48 : toNat10 (slice s 4 8) ≤ 9999 := slice_year_le hdig (by omega)
    have hy04 : toNat10 (slice s 0 4) ≤ 9999 := slice_year_le hdig (by omega)
    cases pref with
    | true =>
      rw [if_pos rfl]
      unfold spec_order8
      rw [if_pos rfl]
      exact first_some_eq_spec
        [(toNat10 (slice s 4 8), toNat10 (slice s 2 4), toNat10 (slice s 0 2)),
         (toNat10 (slice s 0 4), toNat10 (slice s 4 6), toNat10 (slice s 6 8)),
         (toNat10 (slice s 4 8), toNat10 (slice s 0 2), toNat10 (slice s 2 4))] (by
        intro t ht
        rcases List.mem_cons.mp ht with rfl | ht
        · exact hy48
        · rcases List.mem_cons.mp ht with rfl | ht
          · exact hy04
          · rcases List.mem_cons.mp ht with rfl | ht
            · exact hy48
            · exact absurd ht (List.not_mem_nil t))
    | false =>
      rw [if_neg (by decide)]
      unfold spec_order8
      rw [if_neg (by decide)]
      exact first_some_eq_spec
        [(toNat10 (slice s 4 8), toNat10 (slice s 0 2), toNat10 (slice s 2 4)),
         (toNat10 (slice s 0 4), toNat10 (slice s 4 6), toNat10 (slice s 6 8)),
         (toNat10 (slice s 4 8), toNat10 (slice s 2 4), toNat10 (slice s 0 2))] (by
        intro t ht
        rcases List.mem_cons.mp ht with rfl | ht
        · exact hy48
        · rcases List.mem_cons.mp ht with rfl | ht
          · exact hy04
          · rcases List.mem_cons.mp ht with rfl | ht
            · exact hy48
            · exact absurd ht (List.not_mem_nil t))
  · intro s pref hlen hdig
    have h6 : s.data.length = 6 := hlen
    have hpy : py_isdigit s = true := by
      have hne : s.data.isEmpty = false := by
        cases hh : s.data with
        | nil => rw [hh] at h6; simp at h6
        | cons a t => rfl
      simp [py_isdigit, hdig, hne]
    unfold parse_digits_compact
    rw [if_neg (by simp [hpy]), if_neg (by rw [hlen]; decide), if_pos hlen]
    have hyy : toNat10 (slice s 4 6) ≤ 99 := slice_yy_le hdig (by omega)
    have hyr : year_from_yy (toNat10 (slice s 4 6)) ≤ 9999 := by
      unfold year_from_yy YY_PIVOT
      split <;> omega
    have hpiv : spec_pivot_year (toNat10 (slice s 4 6))
        = year_from_yy (toNat10 (slice s 4 6)) := rfl
    cases pref with
    | true =>
      rw [if_pos rfl]
      unfold spec_order6
      rw [if_pos rfl, hpiv]
      exact first_some_eq_spec
        [(year_from_yy (toNat10 (slice s 4 6)), toNat10 (slice s 2 4), toNat10 (slice s 0 2)),
         (year_from_yy (toNat10 (slice s 4 6)), toNat10 (slice s 0 2), toNat10 (slice s 2 4))] (by
        intro t ht
        rcases List.mem_cons.mp ht with rfl | ht
        · exact hyr
        · rcases List.mem_cons.mp ht with rfl | ht
          · exact hyr
          · exact absurd ht (List.not_mem_nil t))
    | false =>
      rw [if_neg (by decide)]
      unfold spec_order6
      rw [if_neg (by decide), hpiv]
      exact first_some_eq_spec
        [(year_from_yy (toNat10 (slice s 4 6)), toNat10 (slice s 0 2), toNat10 (slice s 2 4)),
         (year_from_yy (toNat10 (slice s 4 6)), toNat10 (slice s 2 4), toNat10 (slice s 0 2))] (by
        intro t ht
        rcases List.mem_cons.mp ht with rfl | ht
        · exact hyr
        · rcases List.mem_cons.mp ht with rfl | ht
          · exact hyr
          · exact absurd ht (List.not_mem_nil t))

/-- Witness for `c3_compact_decomposition_order`: the equivalence at the
spec's example inputs "14022013" (8 digits) and "290295" (6 digits, where
DMY lands on the invalid 1995-02-29 and MDY is invalid too). -/
theorem c3_compact_decomposition_order_witness :
    parse_digits_compact "14022013" true = spec_first_valid (spec_order8 "14022013" true)
    ∧ parse_digits_compact "290295" true = spec_first_valid (spec_order6 "290295" true) :=
  ⟨c3_compact_decomposition_order.1 "14022013" true rfl (by decide),
   c3_compact_decomposition_order.2.1 "290295" true rfl (by decide)⟩

/-! ### Digit-string recovery lemmas (C2) -/

/-- The first decomposition `_parse_digits_compact` attempts on an 8-digit
string: DDMMYYYY under day-first preference, MMDDYYYY otherwise
(run.py:96-107). -/
def first_attempt8 (t : String) (pref : Bool) : Option Date :=
  if pref then build (slice t 4 8) (slice t 2 4) (slice t 0 2)
  else build (slice t 4 8) (slice t 0 2) (slice t 2 4)

theorem digitChar_isDigit {k : Nat} (h : k < 10) : (Nat.digitChar k).isDigit = true := by
  have hall : ∀ k2, k2 < 10 → (Nat.digitChar k2).isDigit = true := by decide
  exact hall k h

theorem digitChar_toNat {k : Nat} (h : k < 10) : (Nat.digitChar k).toNat = 48 + k := by
  have hall : ∀ k2, k2 < 10 → (Nat.digitChar k2).toNat = 48 + k2 := by decide
  exact hall k h

theorem digit_not_ws {c : Char} (h : c.isDigit = true) : c.isWhitespace = false := by
  have hb := char_digit_toNat h
  cases hw : c.isWhitespace with
  | false => rfl
  | true =>
    exfalso
    have h32 : c = ' ' ∨ c = '\t' ∨ c = '\r' ∨ c = '\n' := by
      simpa [Char.isWhitespace, or_assoc] using hw
    rcases h32 with rfl | rfl | rfl | rfl <;> exact absurd hb (by decide)

theorem pad4l_digits (n : Nat) : ∀ c ∈ pad4l n, c.isDigit = true := by
  intro c hc
  simp only [pad4l, List.mem_cons, List.not_mem_nil, or_false] at hc
  rcases hc with rfl | rfl | rfl | rfl <;> exact digitChar_isDigit (by omega)

theorem pad2l_digits (n : Nat) : ∀ c ∈ pad2l n, c.isDigit = true := by
  intro c hc
  simp only [pad2l, List.mem_cons, List.not_mem_nil, or_false] at hc
  rcases hc with rfl | rfl <;> exact digitChar_isDigit (by omega)

theorem date_digits_all (D : Date) :
    ∀ c ∈ pad4l D.year ++ (pad2l D.month ++ pad2l D.day), c.isDigit = true := by
  intro c hc
  rcases List.mem_append.mp hc with hc1 | hc2
  · exact pad4l_digits _ c hc1
  · rcases List.mem_append.mp hc2 with hc3 | hc4
    · exact pad2l_digits _ c hc3
    · exact pad2l_digits _ c hc4

theorem py_strip_no_ws {l : List Char} (h : ∀ c ∈ l, c.isWhitespace = false) :
    py_strip (String.mk l) = String.mk l := by
  have hdrop : ∀ m : List Char, (∀ c ∈ m, c.isWhitespace = false) →
      m.dropWhile Char.isWhitespace = m := by
    intro m hm
    cases m with
    | nil => rfl
    | cons a t =>
      rw [List.dropWhile_cons, hm a (by simp)]
      simp
  unfold py_strip
  rw [hdrop l h, hdrop l.reverse (fun c hc => h c (List.mem_reverse.mp hc)),
    List.reverse_reverse]

theorem strip_non_digits_fmt (D : Date) :
    strip_non_digits (fmt_iso D)
      = String.mk (pad4l D.year ++ (pad2l D.month ++ pad2l D.day)) := by
  unfold strip_non_digits fmt_iso
  congr 1
  have hf4 : (pad4l D.year).filter Char.isDigit = pad4l D.year :=
    List.filter_eq_self.mpr (pad4l_digits D.year)
  have hf2m : (pad2l D.month).filter Char.isDigit = pad2l D.month :=
    List.filter_eq_self.mpr (pad2l_digits D.month)
  have hf2d : (pad2l D.day).filter Char.isDigit = pad2l D.day :=
    List.filter_eq_self.mpr (pad2l_digits D.day)
  have hdash : ('-' : Char).isDigit = false := by decide
  simp [List.filter_append, List.filter_cons, hdash, hf4, hf2m, hf2d]

theorem toNat10_pad4 {n : Nat} (h : n ≤ 9999) : toNat10 (String.mk (pad4l n)) = n := by
  unfold toNat10 pad4l
  simp only [List.foldl_cons, List.foldl_nil]
  rw [digitChar_toNat (show n / 1000 % 10 < 10 by omega),
    digitChar_toNat (show n / 100 % 10 < 10 by omega),
    digitChar_toNat (show n / 10 % 10 < 10 by omega),
    digitChar_toNat (show n % 10 < 10 by omega)]
  omega

theorem toNat10_pad2 {n : Nat} (h : n ≤ 99) : toNat10 (String.mk (pad2l n)) = n := by
  unfold toNat10 pad2l
  simp only [List.foldl_cons, List.foldl_nil]
  rw [digitChar_toNat (show n / 10 % 10 < 10 by omega),
    digitChar_toNat (show n % 10 < 10 by omega)]
  omega

theorem days_in_month_le (y m : Nat) : days_in_month y m ≤ 31 := by
  unfold days_in_month
  split
  · split <;> omega
  · split <;> omega

/-! ### C2 -/

/-- C2 is refuted on the code as stated: "15032012" (day-first) normalizes to
"2012-03-15", but stripping the separators and normalizing "20120315" again
with the same preference reinterprets the digits as DDMMYYYY — day 20,
month 12, year 0315 — and returns 315-12-20, not 2012-03-15. -/
theorem c2_counterexample :
    parse_any_date fb0 "15032012" true today0 = .ok "2012-03-15"
    ∧ strip_non_digits (fmt_iso ⟨2012, 3, 15⟩) = "20120315"
    ∧ parse_any_date_dt fb0 "20120315" true today0 = .ok ⟨315, 12, 20⟩
    ∧ (⟨315, 12, 20⟩ : Date) ≠ ⟨2012, 3, 15⟩ :=
  ⟨rfl, rfl, rfl, by decide⟩

/-- C2 (amended): `normalize` is deterministic (the model is a pure function
of the input, preference, oracle and current date), but idempotence on the
canonical output's digit string holds only conditionally: when the output
date is not in the future and the higher-priority decomposition of its
YYYYMMDD digits (DDMMYYYY for day-first, MMDDYYYY for month-first) fails to
form a valid date, re-normalizing the stripped output returns the same
canonical string; when that decomposition succeeds, re-normalization returns
a different date (see `c2_counterexample`). -/
theorem c2_idempotence_amended :
    ∀ (fb : String → Bool → Option Date) (dob : String) (pref : Bool) (today D : Date),
      fb_valid fb →
      parse_any_date_dt fb dob pref today = .ok D →
      ¬ date_lt today D →
      first_attempt8 (strip_non_digits (fmt_iso D)) pref = none →
      parse_any_date fb (strip_non_digits (fmt_iso D)) pref today = .ok (fmt_iso D) := by
  intro fb dob pref today D hfb hok hle hfa
  have hvD : valid_date D = true := parse_any_date_dt_valid hfb hok
  have hv : 1 ≤ D.year ∧ D.year ≤ 9999 ∧ 1 ≤ D.month ∧ D.month ≤ 12 ∧ 1 ≤ D.day
      ∧ D.day ≤ days_in_month D.year D.month := by
    simpa [valid_date, validYMD] using hvD
  have hdim := days_in_month_le D.year D.month
  have ht := strip_non_digits_fmt D
  rw [ht] at hfa ⊢
  have hdd := date_digits_all D
  have hstrip : py_strip (String.mk (pad4l D.year ++ (pad2l D.month ++ pad2l D.day)))
      = String.mk (pad4l D.year ++ (pad2l D.month ++ pad2l D.day)) :=
    py_strip_no_ws fun c hc => digit_not_ws (hdd c hc)
  have hie : (pad4l D.year ++ (pad2l D.month ++ pad2l D.day)).isEmpty = false := rfl
  have hall : (pad4l D.year ++ (pad2l D.month ++ pad2l D.day)).all Char.isDigit = true :=
    List.all_eq_true.mpr hdd
  have hsnd : strip_non_digits (String.mk (pad4l D.year ++ (pad2l D.month ++ pad2l D.day)))
      = String.mk (pad4l D.year ++ (pad2l D.month ++ pad2l D.day)) := by
    unfold strip_non_digits
    congr 1
    exact List.filter_eq_self.mpr hdd
  have hymd : build (slice (String.mk (pad4l D.year ++ (pad2l D.month ++ pad2l D.day))) 0 4)
      (slice (String.mk (pad4l D.year ++ (pad2l D.month ++ pad2l D.day))) 4 6)
      (slice (String.mk (pad4l D.year ++ (pad2l D.month ++ pad2l D.day))) 6 8)
      = some D := by
    show build_date (toNat10 (String.mk (pad4l D.year)))
      (toNat10 (String.mk (pad2l D.month))) (toNat10 (String.mk (pad2l D.day))) = some D
    rw [toNat10_pad4 (by omega), toNat10_pad2 (by omega), toNat10_pad2 (by omega)]
    unfold build_date
    have hvD2 : validYMD D.year D.month D.day = true := hvD
    rw [if_pos hvD2]
  have hpdc : parse_digits_compact
      (String.mk (pad4l D.year ++ (pad2l D.month ++ pad2l D.day))) pref = some D := by
    unfold parse_digits_compact
    rw [if_neg (by simp [py_isdigit, hie, hall]), if_pos (by
      show (pad4l D.year ++ (pad2l D.month ++ pad2l D.day)).length = 8
      simp [pad4l, pad2l])]
    cases pref with
    | true =>
      rw [if_pos rfl]
      unfold first_attempt8 at hfa
      rw [if_pos rfl] at hfa
      rw [hfa, hymd]
      rfl
    | false =>
      rw [if_neg (by decide)]
      unfold first_attempt8 at hfa
      rw [if_neg (by decide)] at hfa
      rw [hfa, hymd]
      rfl
  have hacs : apply_century_sanity D today = some D := by
    unfold apply_century_sanity
    rw [if_neg hle]
  have hmain : parse_any_date_dt fb
      (String.mk (pad4l D.year ++ (pad2l D.month ++ pad2l D.day))) pref today = .ok D := by
    unfold parse_any_date_dt
    rw [if_neg (by rw [hstrip]; simp [hie])]
    rw [hstrip, hsnd]
    simp only [hpdc, hacs]
  unfold parse_any_date
  rw [hmain]

/-- Witness for `c2_idempotence_amended`: re-normalizing the canonical output
of "14022013" (that is, "20130214") under day-first preference returns the
same "2013-02-14" — the DDMMYYYY reading of "20130214" has month 13 and
fails, so the YYYYMMDD reading reproduces the date. -/
theorem c2_idempotence_amended_witness :
    parse_any_date fb0 (strip_non_digits (fmt_iso ⟨2013, 2, 14⟩)) true today0
      = .ok (fmt_iso ⟨2013, 2, 14⟩) :=
  c2_idempotence_amended fb0 "14022013" true today0 ⟨2013, 2, 14⟩ fb0_valid rfl
    (by decide) rfl

/-! ### Helper lemmas on the batch loop -/

theorem validate_row_ok_norm_ok {norm : String → Except String String} {row : RowDict}
    (h : validate_row norm row = []) :
    is_blank row.DateOfBirth = false
    ∧ ∃ v, norm (py_or_empty row.DateOfBirth) = .ok v := by
  by_cases hdob : is_blank row.DateOfBirth
  · exfalso
    unfold validate_row at h
    simp [hdob] at h
  · refine ⟨by simpa using hdob, ?_⟩
    cases hn : norm (py_or_empty row.DateOfBirth) with
    | ok v => exact ⟨v, rfl⟩
    | error e =>
      exfalso
      unfold validate_row at h
      simp [hdob, hn] at h

theorem process_rows_length (norm : String → Except String String) :
    ∀ (rows : List RowDict) (n : Nat),
      (process_rows norm n rows).1.length + (process_rows norm n rows).2.length
        = rows.length := by
  intro rows
  induction rows with
  | nil => intro n; rfl
  | cons row rest ih =>
    intro n
    by_cases he : (validate_row norm row).isEmpty
    · simp only [process_rows, he, if_true, List.length_cons]
      have h2 := ih (n + 1)
      omega
    · simp only [process_rows, he, if_false, List.length_cons, Bool.false_eq_true]
      have h2 := ih (n + 1)
      omega

/-! ### C4 -/

/-- C4 is refuted on the code as stated: on a headerless file the loader's
positional fallback keeps the first file line as a data row, yet the batch
loop still reports it as `index + 2`.  The single-line headerless file
`",Doe,14/02/2013"` produces one data row — file row 1 — whose validation
error is reported as row 2, not row 1. -/
theorem c4_counterexample :
    load_csv_flex [["", "Doe", "14/02/2013"]]
      = .ok [⟨some "", some "Doe", some "14/02/2013"⟩]
    ∧ record_participation_bulk norm0 [⟨some "", some "Doe", some "14/02/2013"⟩]
      = .rejected [(2, ["FirstName is required"])]
    ∧ (2 : Nat) ≠ 1 :=
  ⟨rfl, rfl, by decide⟩

/-- C4 (amended): the row index attached to a ValidationError is always the
0-based dataframe position plus 2, whether or not a header row was present.
With a header this equals the 1-based file row (first data row reported as
row 2); with the headerless positional fallback the first data row — file
row 1 — is also reported as row 2, i.e. its file row plus one, not row 1. -/
theorem c4_row_index_amended :
    ∀ (norm : String → Except String String) (rows : List RowDict) (n : Nat),
      (∀ k row, rows.get? k = some row → validate_row norm row ≠ [] →
        (n + k + 2, validate_row norm row) ∈ (process_rows norm n rows).1)
      ∧ (∀ p, p ∈ (process_rows norm n rows).1 →
          ∃ k row, rows.get? k = some row ∧ validate_row norm row ≠ []
            ∧ p = (n + k + 2, validate_row norm row)) := by
  intro norm rows
  induction rows with
  | nil =>
    intro n
    constructor
    · intro k row hk
      simp at hk
    · intro p hp
      simp only [process_rows] at hp
      exact absurd hp (by simp)
  | cons row rest ih =>
    intro n
    constructor
    · intro k r hk hne
      by_cases he : (validate_row norm row).isEmpty
      · cases k with
        | zero =>
          rw [List.get?_cons_zero, Option.some.injEq] at hk
          rw [List.isEmpty_iff] at he
          rw [← hk] at hne
          exact absurd he hne
        | succ k =>
          rw [List.get?_cons_succ] at hk
          have hm := (ih (n + 1)).1 k r hk hne
          simp only [process_rows, he, if_true]
          have harith : n + (k + 1) + 2 = n + 1 + k + 2 := by omega
          rw [harith]
          exact hm
      · cases k with
        | zero =>
          rw [List.get?_cons_zero, Option.some.injEq] at hk
          subst hk
          simp only [process_rows, he, if_false, Bool.false_eq_true]
          have harith : n + 0 + 2 = n + 2 := by omega
          rw [harith]
          exact List.mem_cons_self _ _
        | succ k =>
          rw [List.get?_cons_succ] at hk
          have hm := (ih (n + 1)).1 k r hk hne
          simp only [process_rows, he, if_false, Bool.false_eq_true]
          have harith : n + (k + 1) + 2 = n + 1 + k + 2 := by omega
          rw [harith]
          exact List.mem_cons_of_mem _ hm
    · intro p hp
      by_cases he : (validate_row norm row).isEmpty
      · simp only [process_rows, he, if_true] at hp
        obtain ⟨k, r, hk, hne, hpe⟩ := (ih (n + 1)).2 p hp
        refine ⟨k + 1, r, by simpa using hk, hne, ?_⟩
        rw [hpe]
        have harith : n + 1 + k + 2 = n + (k + 1) + 2 := by omega
        rw [harith]
      · simp only [process_rows, he, if_false, Bool.false_eq_true, List.mem_cons] at hp
        rcases hp with hp | hp
        · refine ⟨0, row, List.get?_cons_zero, ?_, ?_⟩
          · intro hnil
            rw [hnil, List.isEmpty_nil] at he
            exact he rfl
          · rw [hp]
        · obtain ⟨k, r, hk, hne, hpe⟩ := (ih (n + 1)).2 p hp
          refine ⟨k + 1, r, by simpa using hk, hne, ?_⟩
          rw [hpe]
          have harith : n + 1 + k + 2 = n + (k + 1) + 2 := by omega
          rw [harith]

/-- Witness for `c4_row_index_amended`: in a two-row batch whose second row
(dataframe position 1) is invalid, the error is reported at index 1 + 2 = 3. -/
theorem c4_row_index_amended_witness :
    (3, ["LastName is required"])
      ∈ (process_rows norm0 0
          [⟨some "Jane", some "Doe", some "14/02/2013"⟩,
           ⟨some "Ann", some "", some "14/02/2013"⟩]).1 := by
  have h := (c4_row_index_amended norm0
    [⟨some "Jane", some "Doe", some "14/02/2013"⟩,
     ⟨some "Ann", some "", some "14/02/2013"⟩] 0).1 1
    ⟨some "Ann", some "", some "14/02/2013"⟩ rfl (by decide)
  exact h

/-! ### C5 -/

/-- C5 is refuted on the code as stated: in a batch with zero validation
errors, the normalizer is invoked twice for the row — once inside
`validate_row` (run.py:233) and once more when the row is converted to an
insert record (run.py:314) — not exactly once with a cached result. -/
theorem c5_counterexample :
    (process_rows norm0 0 [⟨some "Jane", some "Doe", some "14/02/2013"⟩]).1 = []
    ∧ process_rows_calls norm0 [⟨some "Jane", some "Doe", some "14/02/2013"⟩] = 2
    ∧ (2 : Nat) ≠ 1 :=
  ⟨rfl, rfl, by decide⟩

/-- C5 (amended): the bulk loop re-invokes the normalizer when converting each
error-free row (validation contributes exactly one invocation per such row and
conversion one more), rather than caching; but since normalization is
deterministic at a fixed current date, the recomputed value equals the one seen
during validation, so the batch output is identical to that of the caching
implementation the spec describes. -/
theorem c5_normalize_twice_amended :
    ∀ (norm : String → Except String String) (rows : List RowDict) (n : Nat),
      process_rows norm n rows = process_rows_cached norm n rows
      ∧ (∀ row ∈ rows, validate_row norm row = [] → validate_row_calls row = 1) := by
  intro norm rows
  induction rows with
  | nil => intro n; exact ⟨rfl, by simp⟩
  | cons row rest ih =>
    intro n
    constructor
    · by_cases he : (validate_row norm row).isEmpty
      · have hok := validate_row_ok_norm_ok (List.isEmpty_iff.mp he)
        obtain ⟨hdob, v, hv⟩ := hok
        simp only [process_rows, process_rows_cached, validate_row_cached, he, if_true]
        rw [(ih (n + 1)).1]
        simp [get_ok, hv, hdob, Except.toOption, Option.getD]
      · simp only [process_rows, process_rows_cached, validate_row_cached, he, if_false,
          Bool.false_eq_true]
        rw [(ih (n + 1)).1]
    · intro r hr hv
      rcases List.mem_cons.mp hr with hr | hr
      · subst hr
        unfold validate_row_calls
        rw [if_neg]
        simp [(validate_row_ok_norm_ok hv).1]
      · exact (ih (n + 1)).2 r hr hv

/-- Witness for `c5_normalize_twice_amended`: on a clean single-row batch the
recomputing loop and the caching loop produce identical output, and validation
performs exactly one normalizer call for the row. -/
theorem c5_normalize_twice_amended_witness :
    process_rows norm0 0 [⟨some "Jane", some "Doe", some "14/02/2013"⟩]
      = process_rows_cached norm0 0 [⟨some "Jane", some "Doe", some "14/02/2013"⟩]
    ∧ validate_row_calls ⟨some "Jane", some "Doe", some "14/02/2013"⟩ = 1 :=
  ⟨(c5_normalize_twice_amended norm0 [⟨some "Jane", some "Doe", some "14/02/2013"⟩] 0).1,
   (c5_normalize_twice_amended norm0 [⟨some "Jane", some "Doe", some "14/02/2013"⟩] 0).2
     ⟨some "Jane", some "Doe", some "14/02/2013"⟩ (by simp) rfl⟩

/-! ### C9 -/

/-- C9: every row of a batch is validated and classified (invalid rows do not
halt later rows: error entries plus converted rows partition the batch); any
validation error rejects the whole batch with no insert of any row; and the
insert outcome is reached exactly when the error set is empty and at least one
converted row exists. -/
theorem c9_batch_policy :
    ∀ (norm : String → Except String String) (df : List RowDict),
      ((process_rows norm 0 (df.map strip_cells)).1.length
          + (process_rows norm 0 (df.map strip_cells)).2.length = df.length)
      ∧ ((process_rows norm 0 (df.map strip_cells)).1 ≠ [] →
          record_participation_bulk norm df
            = .rejected (process_rows norm 0 (df.map strip_cells)).1)
      ∧ (record_participation_bulk norm df
            = .inserted (process_rows norm 0 (df.map strip_cells)).2
          ↔ (process_rows norm 0 (df.map strip_cells)).1 = []
            ∧ (process_rows norm 0 (df.map strip_cells)).2 ≠ []) := by
  intro norm df
  refine ⟨?_, ?_, ?_⟩
  · rw [process_rows_length]
    exact List.length_map _ _
  · intro hne
    unfold record_participation_bulk
    rw [if_pos]
    simpa using hne
  · unfold record_participation_bulk
    by_cases h1 : (process_rows norm 0 (df.map strip_cells)).1 = []
    · rw [if_neg (by simpa using h1)]
      by_cases h2 : (process_rows norm 0 (df.map strip_cells)).2 = []
      · rw [if_pos (by simpa using h2)]
        constructor
        · intro hc
          exact absurd hc (by simp)
        · intro ⟨_, hc⟩
          exact absurd h2 hc
      · rw [if_neg (by simpa using h2)]
        simp [h1, h2]
    · rw [if_pos (by simpa using h1)]
      constructor
      · intro hc
        exact absurd hc (by simp)
      · intro ⟨hc, _⟩
        exact absurd hc h1

/-- Witness for `c9_batch_policy`: a two-row batch with one valid row and one
blank-LastName row is rejected whole — the valid row is not inserted — with
the error keyed to dataframe index 1 (reported row 3). -/
theorem c9_batch_policy_witness :
    record_participation_bulk norm0
      [⟨some "Jane", some "Doe", some "14/02/2013"⟩,
       ⟨some "Ann", some "", some "14/02/2013"⟩]
      = .rejected [(3, ["LastName is required"])] := by
  have h := (c9_batch_policy norm0
    [⟨some "Jane", some "Doe", some "14/02/2013"⟩,
     ⟨some "Ann", some "", some "14/02/2013"⟩]).2.1 (by decide)
  rw [h]
  rfl

end KMKO
